import Mathlib

/-!
Shallow embedding of the spending-pattern analytics of the spend-tracker
application: the category aggregation and insight generation of
`analyzeSpendingHabits` (SpendingHabitsAnalysis component), the monthly
trend / recurring-bill classification of `loadTrendsData` (MonthlyTrends
component), and the income normalizer `calculateMonthlyAmount`
(Income page).  Monetary amounts are modelled as exact rationals (the
application uses ordinary floating point; the spec declares the arithmetic
not precision-sensitive, and every constant appearing in the code is an
exact decimal).
-/

namespace SpendTracker

/-- Expense category record as selected by the queries:
`expense_categories ( name, icon, color )`. -/
structure Category where
  name : String
  icon : String
  color : String
  deriving DecidableEq, Repr

/-- Expense record as selected by the queries: `name, amount, expense_date,
expense_categories`.  Of the date only the day of month matters to the code
under study (`new Date(exp.expense_date).getDate()`), so it is embedded as
`day`; `category` is `none` when the joined `expense_categories` row is
`null`. -/
structure Expense where
  name : String
  amount : ℚ
  day : ℕ
  category : Option Category
  deriving DecidableEq, Repr

/-- Resolved category name: `expense.expense_categories?.name || 'Uncategorized'`.
JavaScript `||` takes the fallback when the joined row is missing and also
when its name is the empty string (a falsy value). -/
def resolveCategoryName (e : Expense) : String :=
  match e.category with
  | none => "Uncategorized"
  | some c => if c.name = "" then "Uncategorized" else c.name

/-- Monthly normalizer from the Income page:
`weekly: *4.33, biweekly: *2.17, annual: /12, default: unchanged`. -/
def calculateMonthlyAmount (amount : ℚ) (frequency : String) : ℚ :=
  if frequency = "weekly" then amount * 4.33
  else if frequency = "biweekly" then amount * 2.17
  else if frequency = "annual" then amount / 12
  else amount

/-- One step of building `categoryMap`: the expense is appended to the entry
of its key, which is created at the end on first sight (JavaScript `Map`
preserves insertion order). -/
def insertGrouped (acc : List (String × List Expense)) (key : String) (e : Expense) :
    List (String × List Expense) :=
  match acc with
  | [] => [(key, [e])]
  | (n, es) :: rest =>
    if n = key then (n, es ++ [e]) :: rest
    else (n, es) :: insertGrouped rest key e

/-- The `categoryMap` of `analyzeSpendingHabits`: expenses grouped by resolved
category name, in encounter order. -/
def groupExpenses (l : List Expense) : List (String × List Expense) :=
  l.foldl (fun acc e => insertGrouped acc (resolveCategoryName e) e) []

/-- First entry of the group list carrying the given key, or `[]`. -/
def lookupGroup (acc : List (String × List Expense)) (key : String) : List Expense :=
  match acc with
  | [] => []
  | (n, es) :: rest => if n = key then es else lookupGroup rest key

/-- Grand total: `expenses.forEach(e => total += Number(e.amount))`. -/
def totalSpent (l : List Expense) : ℚ := (l.map Expense.amount).sum

/-- Window total of one resolved category. -/
def catTotal (name : String) (l : List Expense) : ℚ :=
  totalSpent (l.filter (fun e => resolveCategoryName e = name))

/-- Average used by `analyzeSpendingHabits`: `sum / length || 0`; the
JavaScript `|| 0` turns the `NaN` produced by `0 / 0` on an empty half
into `0` (on a non-empty half it leaves the quotient unchanged, since a
zero quotient is replaced by the same `0`). -/
def avgOrZero (l : List ℚ) : ℚ :=
  if l.length = 0 then 0 else l.sum / (l.length : ℚ)

/-- JavaScript `arr.slice(-k)`: the last `k` elements, except that `-0` is
`0`, so `slice(-0)` is the whole array. -/
def sliceNeg (l : List ℚ) (k : ℕ) : List ℚ :=
  if k = 0 then l else l.drop (l.length - k)

/-- Trend of `analyzeSpendingHabits` (amounts in the code's order, namely
descending `expense_date`):
`halfPoint = floor(len/2)`, `firstHalf = slice(-halfPoint)`,
`secondHalf = slice(0, len - halfPoint)`,
`trend = firstHalfAvg > 0 ? (secondHalfAvg - firstHalfAvg)/firstHalfAvg*100 : 0`. -/
def trendHabits (amounts : List ℚ) : ℚ :=
  let halfPoint := amounts.length / 2
  let firstHalf := sliceNeg amounts halfPoint
  let secondHalf := amounts.take (amounts.length - halfPoint)
  let firstHalfAvg := avgOrZero firstHalf
  let secondHalfAvg := avgOrZero secondHalf
  if 0 < firstHalfAvg then (secondHalfAvg - firstHalfAvg) / firstHalfAvg * 100 else 0

/-- Average with the `|| 1` guard on the divisor used by the category trends
of `loadTrendsData`: `sum / (length || 1)`. -/
def avgGuard1 (l : List ℚ) : ℚ :=
  l.sum / (if l.length = 0 then 1 else (l.length : ℚ))

/-- Mean of the earlier half (first `floor(len/2)` entries) of an
ascending-by-month series, as computed at lines 750-754 of the
MonthlyTrends source. -/
def earlierMean (s : List ℚ) : ℚ := avgGuard1 (s.take (s.length / 2))

/-- Mean of the later half (entries from `floor(len/2)` on). -/
def laterMean (s : List ℚ) : ℚ := avgGuard1 (s.drop (s.length / 2))

/-- Trend of the category trends in `loadTrendsData` (monthly amounts in
ascending month order): `firstHalf = slice(0, halfPoint)`,
`secondHalf = slice(halfPoint)`,
`trend = firstHalfAvg > 0 ? (secondHalfAvg - firstHalfAvg)/firstHalfAvg*100 : 0`. -/
def trendMonthly (amounts : List ℚ) : ℚ :=
  if 0 < earlierMean amounts then
    (laterMean amounts - earlierMean amounts) / earlierMean amounts * 100
  else 0

/-- Trend formula exactly as the specification words it (stated for
comparison with the source-derived trends): split at the floor of half the
length, means without guards, result `0` when the earlier mean is `0`.
Division by zero in ℚ yields `0`, so the empty earlier half of a singleton
series gets mean `0`. -/
def specTrend (series : List ℚ) : ℚ :=
  let earlier := series.take (series.length / 2)
  let later := series.drop (series.length / 2)
  let em := earlier.sum / (earlier.length : ℚ)
  let lm := later.sum / (later.length : ℚ)
  if em = 0 then 0 else (lm - em) / em * 100

/-- Mean of a bill's monthly amounts:
`avgAmount = amounts.reduce((s,a) => s + a.amount, 0) / amounts.length`. -/
def avgAmount (amounts : List ℚ) : ℚ := amounts.sum / (amounts.length : ℚ)

/-- Population variance of a bill's monthly amounts:
`amounts.reduce((s,a) => s + Math.pow(a.amount - avgAmount, 2), 0) / amounts.length`. -/
def variance (amounts : List ℚ) : ℚ :=
  (amounts.map (fun a => (a - avgAmount amounts) ^ 2)).sum / (amounts.length : ℚ)

/-- The test `coefficientOfVariation < 0.3` of `loadTrendsData`, where
`coefficientOfVariation = avgAmount > 0 ? Math.sqrt(variance)/avgAmount : 1`.
Over the nonnegative reals, `Math.sqrt(variance)/avg < 0.3` with `avg > 0`
holds exactly when `variance < (0.3 * avg)^2`, which this definition decides
exactly in ℚ, avoiding the irrational square root; the `avg ≤ 0` branch
keeps the source's comparison `1 < 0.3` of the fallback coefficient. -/
def cvLtThreshold (amounts : List ℚ) : Bool :=
  if 0 < avgAmount amounts then
    decide (variance amounts < (0.3 * avgAmount amounts) ^ 2)
  else decide ((1 : ℚ) < 0.3)

/-- Recurring-bill classification:
`isRecurring = coefficientOfVariation < 0.3 && amounts.length >= 3`. -/
def isRecurring (amounts : List ℚ) : Bool :=
  cvLtThreshold amounts && decide (3 ≤ amounts.length)

/-- Insights produced by `analyzeSpendingHabits`, abstracted from their
display strings: each constructor carries the data interpolated into the
corresponding message. -/
inductive Insight where
  | highSpending (category : String) (percentage : ℚ) (amount : ℚ)
  | increasingSpending (category : String) (trend : ℚ)
  | reducedSpending (category : String) (trend : ℚ)
  | dailyAverage (amount : ℚ)
  | startTracking
  deriving DecidableEq, Repr

/-- Per-category insights of `analyzeSpendingHabits`: a high-spending warning
when `totalCategorySpent > total * 0.3`, then an increasing-spending warning
when `trend > 50`, else a reduced-spending success when `trend < -20`. -/
def insightsForCategory (total : ℚ) (categoryName : String)
    (categoryExpenses : List Expense) : List Insight :=
  let totalCategorySpent := totalSpent categoryExpenses
  let trend := trendHabits (categoryExpenses.map Expense.amount)
  (if total * 0.3 < totalCategorySpent then
    [Insight.highSpending categoryName (totalCategorySpent / total * 100) totalCategorySpent]
   else []) ++
  (if 50 < trend then [Insight.increasingSpending categoryName trend]
   else if trend < -20 then [Insight.reducedSpending categoryName trend]
   else [])

/-- All per-category insights, in `categoryMap` iteration order. -/
def perCategoryInsights (expenses : List Expense) : List Insight :=
  (groupExpenses expenses).flatMap fun g =>
    insightsForCategory (totalSpent expenses) g.1 g.2

/-- Insight list of `analyzeSpendingHabits` on a non-empty expense list:
when `total > 0` the daily-average insight `total / 90` is unshifted to the
front. -/
def generatedInsights (expenses : List Expense) : List Insight :=
  if 0 < totalSpent expenses then
    Insight.dailyAverage (totalSpent expenses / 90) :: perCategoryInsights expenses
  else perCategoryInsights expenses

/-- Full insight output of `analyzeSpendingHabits`, including the
start-tracking early return on an empty expense list. -/
def analyzeSpendingInsights (expenses : List Expense) : List Insight :=
  if expenses = [] then [Insight.startTracking] else generatedInsights expenses

/-- Time-of-month classification result. -/
inductive TimeOfMonth where
  | early
  | mid
  | late
  | consistent
  deriving DecidableEq, Repr

/-- Count of a category's expenses on days 1-10:
`filter(exp => getDate() <= 10).length`. -/
def earlyCount (es : List Expense) : ℕ :=
  (es.filter fun e => e.day ≤ 10).length

/-- Count on days 11-20: `filter(date > 10 && date <= 20).length`. -/
def midCount (es : List Expense) : ℕ :=
  (es.filter fun e => 10 < e.day ∧ e.day ≤ 20).length

/-- Count on days 21 and later: `filter(getDate() > 20).length`. -/
def lateCount (es : List Expense) : ℕ :=
  (es.filter fun e => 20 < e.day).length

/-- Time-of-month pattern of `analyzeSpendingHabits`: starts at
`'consistent'` and is overwritten only when one bucket strictly exceeds both
others. -/
def timeOfMonthPattern (es : List Expense) : TimeOfMonth :=
  if midCount es < earlyCount es ∧ lateCount es < earlyCount es then TimeOfMonth.early
  else if earlyCount es < midCount es ∧ lateCount es < midCount es then TimeOfMonth.mid
  else if earlyCount es < lateCount es ∧ midCount es < lateCount es then TimeOfMonth.late
  else TimeOfMonth.consistent

/-- Composite grouping key of the bill trends in `loadTrendsData`:
`billKey = expense.name + '-' + categoryName` (template literal). -/
def billKey (e : Expense) : String :=
  e.name ++ "-" ++ resolveCategoryName e

/-- JavaScript `str.split('-')` on the character list of a string: splits at
every separator occurrence, keeping empty segments. -/
def splitOnChar (sep : Char) : List Char → List (List Char)
  | [] => [[]]
  | c :: cs =>
    let rest := splitOnChar sep cs
    if c = sep then [] :: rest
    else
      match rest with
      | [] => [[c]]
      | r :: rs => (c :: r) :: rs

/-- Name recovered by `const [name, categoryName] = billName.split('-')`:
the first segment of the key. -/
def parsedBillName (key : String) : List Char :=
  (splitOnChar ('-') key.data).headD []

/-- Concrete expense whose name contains a hyphen, for exercising the bill
key construction. -/
def hyphenExpense : Expense :=
  { name := "Spotify-Family", amount := 10, day := 3,
    category := some { name := "Streaming", icon := "s", color := "#10B981" } }

/-- Concrete expense with amount 0 (a valid non-negative amount per the data
model), exercising the `total > 0` guard of the daily-average insight. -/
def zeroExpense : Expense :=
  { name := "Water", amount := 0, day := 1, category := none }

/-- Concrete expense with a positive amount. -/
def sampleExpense : Expense :=
  { name := "Lunch", amount := 10, day := 2, category := none }

/-- Groceries category of the specification scenario. -/
def groceriesCategory : Category :=
  { name := "Groceries", icon := "g", color := "#0EA5E9" }

/-- Gas category of the specification scenario. -/
def gasCategory : Category :=
  { name := "Gas", icon := "f", color := "#F97316" }

/-- Specification scenario: Groceries 100 on day 1, Groceries 120 on day 15,
Gas 50 on day 5, over a one-month window. -/
def scenarioExpenses : List Expense :=
  [ { name := "Shop", amount := 100, day := 1, category := some groceriesCategory },
    { name := "Shop", amount := 120, day := 15, category := some groceriesCategory },
    { name := "Fuel", amount := 50, day := 5, category := some gasCategory } ]

/-- C4: the monthly normalizer is a pure total function realizing the fixed
multiplier table — weekly ×4.33, biweekly ×2.17, annual ÷12, monthly or any
unknown tag unchanged — and normalize(100, weekly) = 433. -/
theorem calculateMonthlyAmount_table (a : ℚ) (_ha : 0 ≤ a) (f : String) :
    calculateMonthlyAmount a "weekly" = a * 4.33 ∧
    calculateMonthlyAmount a "biweekly" = a * 2.17 ∧
    calculateMonthlyAmount a "annual" = a / 12 ∧
    calculateMonthlyAmount a "monthly" = a ∧
    (f ≠ "weekly" → f ≠ "biweekly" → f ≠ "annual" → calculateMonthlyAmount a f = a) ∧
    calculateMonthlyAmount 100 "weekly" = 433 := by
  refine ⟨by simp [calculateMonthlyAmount], by simp [calculateMonthlyAmount],
    by simp [calculateMonthlyAmount], by simp [calculateMonthlyAmount], ?_, ?_⟩
  · intro h1 h2 h3
    simp [calculateMonthlyAmount, h1, h2, h3]
  · norm_num [calculateMonthlyAmount]

/-- Witness for C4 at amount 7 and the unknown tag "quarterly". -/
theorem calculateMonthlyAmount_table_witness :
    calculateMonthlyAmount 7 "weekly" = 7 * 4.33 ∧
    calculateMonthlyAmount 7 "biweekly" = 7 * 2.17 ∧
    calculateMonthlyAmount 7 "annual" = 7 / 12 ∧
    calculateMonthlyAmount 7 "monthly" = 7 ∧
    ("quarterly" ≠ "weekly" → "quarterly" ≠ "biweekly" → "quarterly" ≠ "annual" →
      calculateMonthlyAmount 7 "quarterly" = 7) ∧
    calculateMonthlyAmount 100 "weekly" = 433 :=
  calculateMonthlyAmount_table 7 (by norm_num) "quarterly"

/-- C7: the trend estimator is sign-symmetric — two series with the same
(positive) earlier-half mean whose later-half means move by equal magnitude
in opposite directions get trend percentages of equal magnitude and opposite
sign. -/
theorem trendMonthly_sign_symmetric (s t : List ℚ)
    (hm : earlierMean t = earlierMean s) (hpos : 0 < earlierMean s)
    (hd : laterMean t - earlierMean t = -(laterMean s - earlierMean s)) :
    trendMonthly t = - trendMonthly s := by
  have hpt : 0 < earlierMean t := by rw [hm]; exact hpos
  unfold trendMonthly
  rw [if_pos hpt, if_pos hpos, hd, hm]
  ring

/-- Witness for C7: an increase from 100 to 150 against a decrease from 100
to 50. -/
theorem trendMonthly_sign_symmetric_witness :
    trendMonthly [100, 50] = - trendMonthly [100, 150] :=
  trendMonthly_sign_symmetric [100, 150] [100, 50]
    (by norm_num [earlierMean, avgGuard1])
    (by norm_num [earlierMean, avgGuard1])
    (by norm_num [earlierMean, laterMean, avgGuard1])

/-- C8: the time-of-month classification is the bucket that strictly exceeds
both others among early (day ≤ 10), mid (day 11-20) and late (day > 20), and
every tie for the maximum defaults to consistent. -/
theorem timeOfMonthPattern_majority (es : List Expense) :
    (timeOfMonthPattern es = TimeOfMonth.early ↔
      midCount es < earlyCount es ∧ lateCount es < earlyCount es) ∧
    (timeOfMonthPattern es = TimeOfMonth.mid ↔
      earlyCount es < midCount es ∧ lateCount es < midCount es) ∧
    (timeOfMonthPattern es = TimeOfMonth.late ↔
      earlyCount es < lateCount es ∧ midCount es < lateCount es) ∧
    (timeOfMonthPattern es = TimeOfMonth.consistent ↔
      ¬(midCount es < earlyCount es ∧ lateCount es < earlyCount es) ∧
      ¬(earlyCount es < midCount es ∧ lateCount es < midCount es) ∧
      ¬(earlyCount es < lateCount es ∧ midCount es < lateCount es)) := by
  unfold timeOfMonthPattern
  split_ifs with h1 h2 h3 <;> refine ⟨?_, ?_, ?_, ?_⟩ <;> simp_all <;> omega

/-- C9: the composite bill key name-hyphen-category is misparsed by
`split('-')` for a name containing a hyphen: the reported bill name differs
from the expense's original name. -/
theorem billKey_misparses_hyphenated_name :
    ('-') ∈ hyphenExpense.name.data ∧
    parsedBillName (billKey hyphenExpense) ≠ hyphenExpense.name.data := by
  constructor
  · decide
  · decide

/-- C10: a bill series with mean 0 gets the fallback coefficient of
variation 1 and is never classified as recurring. -/
theorem isRecurring_false_of_zero_mean (amounts : List ℚ)
    (h : avgAmount amounts = 0) : isRecurring amounts = false := by
  simp only [isRecurring, cvLtThreshold, h]
  norm_num

/-- Witness for C10: the two-month all-zero series. -/
theorem isRecurring_false_of_zero_mean_witness :
    avgAmount [0, 0] = 0 ∧ isRecurring [0, 0] = false :=
  ⟨by norm_num [avgAmount], isRecurring_false_of_zero_mean [0, 0] (by norm_num [avgAmount])⟩

/-- Looking a key up after one insertion: the inserted expense lands at the
end of exactly its own key's group. -/
theorem lookupGroup_insertGrouped (acc : List (String × List Expense)) (k : String)
    (e : Expense) (key : String) :
    lookupGroup (insertGrouped acc k e) key =
      lookupGroup acc key ++ if k = key then [e] else [] := by
  induction acc with
  | nil => simp [insertGrouped, lookupGroup]
  | cons hd tl ih =>
    obtain ⟨n, es⟩ := hd
    by_cases hnk : n = k
    · subst hnk
      by_cases hk : n = key
      · subst hk
        simp [insertGrouped, lookupGroup]
      · simp [insertGrouped, lookupGroup, hk]
    · by_cases hk : n = key
      · subst hk
        simp [insertGrouped, lookupGroup, hnk, Ne.symm hnk]
      · simp [insertGrouped, lookupGroup, hnk, hk, ih]

/-- Looking a key up after folding a list of expenses into the group list
appends exactly the expenses resolving to that key, in order. -/
theorem lookupGroup_foldl (l : List Expense) (acc : List (String × List Expense))
    (key : String) :
    lookupGroup (l.foldl (fun a e => insertGrouped a (resolveCategoryName e) e) acc) key =
      lookupGroup acc key ++ l.filter (fun e => resolveCategoryName e = key) := by
  induction l generalizing acc with
  | nil => simp
  | cons e l ih =>
    simp only [List.foldl_cons, List.filter_cons]
    rw [ih, lookupGroup_insertGrouped]
    by_cases h : resolveCategoryName e = key
    · simp [h]
    · simp [h]

/-- The group of a key in `categoryMap` is the filter of the input by that
resolved category name. -/
theorem lookupGroup_groupExpenses (l : List Expense) (key : String) :
    lookupGroup (groupExpenses l) key =
      l.filter (fun e => resolveCategoryName e = key) := by
  simpa [lookupGroup] using lookupGroup_foldl l [] key

/-- Keys after an insertion: unchanged when the key is present, appended
otherwise. -/
theorem map_fst_insertGrouped (acc : List (String × List Expense)) (k : String)
    (e : Expense) :
    (insertGrouped acc k e).map Prod.fst =
      if k ∈ acc.map Prod.fst then acc.map Prod.fst else acc.map Prod.fst ++ [k] := by
  induction acc with
  | nil => simp [insertGrouped]
  | cons hd tl ih =>
    obtain ⟨n, es⟩ := hd
    by_cases hnk : n = k
    · subst hnk
      simp [insertGrouped]
    · by_cases hmem : k ∈ tl.map Prod.fst <;>
        simp [insertGrouped, hnk, ih, hmem, Ne.symm hnk]

/-- Insertion preserves distinctness of the group keys. -/
theorem nodup_keys_insertGrouped (acc : List (String × List Expense)) (k : String)
    (e : Expense) (h : (acc.map Prod.fst).Nodup) :
    ((insertGrouped acc k e).map Prod.fst).Nodup := by
  rw [map_fst_insertGrouped]
  split_ifs with hmem
  · exact h
  · simp [List.nodup_append, h, hmem]

/-- The keys of `categoryMap` are distinct: one group per resolved category
name. -/
theorem nodup_keys_groupExpenses (l : List Expense) :
    ((groupExpenses l).map Prod.fst).Nodup := by
  have step : ∀ acc : List (String × List Expense), (acc.map Prod.fst).Nodup →
      ((l.foldl (fun a e => insertGrouped a (resolveCategoryName e) e) acc).map
        Prod.fst).Nodup := by
    induction l with
    | nil => intro acc h; simpa using h
    | cons e l ih =>
      intro acc h
      exact ih _ (nodup_keys_insertGrouped _ _ _ h)
  simpa [groupExpenses] using step [] (by simp)

/-- With distinct keys, every entry of the group list is recovered by lookup
of its key. -/
theorem lookupGroup_eq_of_mem (acc : List (String × List Expense))
    (g : String × List Expense) (hnd : (acc.map Prod.fst).Nodup) (hg : g ∈ acc) :
    lookupGroup acc g.1 = g.2 := by
  induction acc with
  | nil => simp at hg
  | cons hd tl ih =>
    obtain ⟨n, es⟩ := hd
    rcases List.mem_cons.mp hg with h | h
    · subst h
      simp [lookupGroup]
    · have hn : ¬ n = g.1 := by
        intro hEq
        have : g.1 ∈ tl.map Prod.fst := List.mem_map.mpr ⟨g, h, rfl⟩
        rw [List.map_cons, List.nodup_cons, hEq] at hnd
        exact hnd.1 this
      have hndtl : (tl.map Prod.fst).Nodup := by
        rw [List.map_cons, List.nodup_cons] at hnd
        exact hnd.2
      simp only [lookupGroup, if_neg hn]
      exact ih hndtl h

/-- A key whose lookup is non-empty names an actual entry of the group
list. -/
theorem mem_of_lookupGroup_ne_nil (acc : List (String × List Expense)) (key : String)
    (h : lookupGroup acc key ≠ []) : (key, lookupGroup acc key) ∈ acc := by
  induction acc with
  | nil => simp [lookupGroup] at h
  | cons hd tl ih =>
    obtain ⟨n, es⟩ := hd
    by_cases hk : n = key
    · subst hk
      simp [lookupGroup]
    · simp only [lookupGroup, if_neg hk] at h ⊢
      exact List.mem_cons_of_mem _ (ih h)

/-- One insertion adds exactly the inserted expense's amount to the sum of
the per-group totals. -/
theorem totalSpent_insertGrouped (acc : List (String × List Expense)) (k : String)
    (e : Expense) :
    ((insertGrouped acc k e).map (fun g => totalSpent g.2)).sum =
      (acc.map (fun g => totalSpent g.2)).sum + e.amount := by
  induction acc with
  | nil => simp [insertGrouped, totalSpent]
  | cons hd tl ih =>
    obtain ⟨n, es⟩ := hd
    by_cases hnk : n = k
    · subst hnk
      simp [insertGrouped, totalSpent]
      ring
    · simp [insertGrouped, hnk, ih]
      ring

/-- C2: the sum over all category groups of the per-group total equals the
sum of all input amounts, and each group is exactly the filter of the input
by its resolved category name — grouping with the Uncategorized fallback
partitions the input and conserves the grand total. -/
theorem groupTotals_conserved (expenses : List Expense) :
    (((groupExpenses expenses).map (fun g => totalSpent g.2)).sum = totalSpent expenses) ∧
    ∀ g ∈ groupExpenses expenses,
      g.2 = expenses.filter (fun e => resolveCategoryName e = g.1) := by
  constructor
  · have key : ∀ acc : List (String × List Expense),
        ((expenses.foldl (fun a e => insertGrouped a (resolveCategoryName e) e) acc).map
          (fun g => totalSpent g.2)).sum =
        (acc.map (fun g => totalSpent g.2)).sum + totalSpent expenses := by
      induction expenses with
      | nil => intro acc; simp [totalSpent]
      | cons e l ih =>
        intro acc
        simp only [List.foldl_cons]
        rw [ih, totalSpent_insertGrouped]
        simp [totalSpent]
        ring
    simpa [groupExpenses, totalSpent] using key []
  · intro g hg
    rw [← lookupGroup_eq_of_mem (groupExpenses expenses) g
      (nodup_keys_groupExpenses expenses) hg]
    exact lookupGroup_groupExpenses expenses g.1

/-- Sum of non-negative amounts is non-negative. -/
theorem totalSpent_nonneg (l : List Expense) (h : ∀ e ∈ l, 0 ≤ e.amount) :
    0 ≤ totalSpent l := by
  apply List.sum_nonneg
  intro x hx
  rcases List.mem_map.mp hx with ⟨e, he, rfl⟩
  exact h e he

/-- A high-spending insight is in the per-category insight list exactly when
the category's window total beats the 30 percent threshold, and then its
percentage and amount fields are determined by the category total. -/
theorem highSpending_mem_perCategory (expenses : List Expense)
    (hnn : ∀ e ∈ expenses, 0 ≤ e.amount) (name : String) (p a : ℚ) :
    Insight.highSpending name p a ∈ perCategoryInsights expenses ↔
      (totalSpent expenses * 0.3 < catTotal name expenses ∧
        p = catTotal name expenses / totalSpent expenses * 100 ∧
        a = catTotal name expenses) := by
  constructor
  · intro h
    rcases List.mem_flatMap.mp h with ⟨g, hg, hmem⟩
    have hfil : g.2 = expenses.filter (fun e => resolveCategoryName e = g.1) := by
      rw [← lookupGroup_eq_of_mem (groupExpenses expenses) g
        (nodup_keys_groupExpenses expenses) hg]
      exact lookupGroup_groupExpenses expenses g.1
    simp only [insightsForCategory, List.mem_append] at hmem
    rcases hmem with hmem | hmem
    · by_cases hc : totalSpent expenses * 0.3 < totalSpent g.2
      · rw [if_pos hc] at hmem
        simp only [List.mem_singleton, Insight.highSpending.injEq] at hmem
        obtain ⟨hname, hp, ha⟩ := hmem
        subst hname
        have hcat : catTotal g.1 expenses = totalSpent g.2 := by
          rw [catTotal, ← hfil]
        rw [hcat]
        exact ⟨hc, hp, ha⟩
      · rw [if_neg hc] at hmem
        simp at hmem
    · split_ifs at hmem <;> simp_all
  · rintro ⟨hc, hp, ha⟩
    have htot : (0 : ℚ) ≤ totalSpent expenses := totalSpent_nonneg expenses hnn
    have hcat_pos : 0 < catTotal name expenses :=
      lt_of_le_of_lt (mul_nonneg htot (by norm_num)) hc
    have hfil_ne : expenses.filter (fun e => resolveCategoryName e = name) ≠ [] := by
      intro h0
      rw [catTotal, h0] at hcat_pos
      simp [totalSpent] at hcat_pos
    have hlk := lookupGroup_groupExpenses expenses name
    have hmemg : (name, expenses.filter (fun e => resolveCategoryName e = name)) ∈
        groupExpenses expenses := by
      have hne : lookupGroup (groupExpenses expenses) name ≠ [] := by
        rw [hlk]; exact hfil_ne
      have hm := mem_of_lookupGroup_ne_nil (groupExpenses expenses) name hne
      rwa [hlk] at hm
    apply List.mem_flatMap.mpr
    refine ⟨_, hmemg, ?_⟩
    simp only [insightsForCategory]
    apply List.mem_append_left
    have hcond : totalSpent expenses * 0.3 <
        totalSpent (expenses.filter (fun e => resolveCategoryName e = name)) := hc
    rw [if_pos hcond]
    simp only [List.mem_singleton]
    rw [hp, ha]
    rfl

/-- C5: a high-spending warning is emitted for a category exactly when its
window total strictly exceeds 30 percent of the grand total, and it carries
the category's percentage of the grand total and the category total. -/
theorem highSpending_insight_iff (expenses : List Expense)
    (hnn : ∀ e ∈ expenses, 0 ≤ e.amount) (name : String) :
    ((∃ p a, Insight.highSpending name p a ∈ analyzeSpendingInsights expenses) ↔
      totalSpent expenses * 0.3 < catTotal name expenses) ∧
    ∀ p a, Insight.highSpending name p a ∈ analyzeSpendingInsights expenses →
      p = catTotal name expenses / totalSpent expenses * 100 ∧
      a = catTotal name expenses := by
  have hmem : ∀ p a, Insight.highSpending name p a ∈ analyzeSpendingInsights expenses ↔
      Insight.highSpending name p a ∈ perCategoryInsights expenses := by
    intro p a
    by_cases hemp : expenses = []
    · subst hemp
      simp [analyzeSpendingInsights, perCategoryInsights, groupExpenses]
    · rw [analyzeSpendingInsights, if_neg hemp, generatedInsights]
      split_ifs with hpos
      · simp
      · simp
  constructor
  · constructor
    · rintro ⟨p, a, h⟩
      exact ((highSpending_mem_perCategory expenses hnn name p a).mp ((hmem p a).mp h)).1
    · intro hc
      exact ⟨_, _, (hmem _ _).mpr
        ((highSpending_mem_perCategory expenses hnn name _ _).mpr ⟨hc, rfl, rfl⟩)⟩
  · intro p a h
    exact ((highSpending_mem_perCategory expenses hnn name p a).mp ((hmem p a).mp h)).2

/-- Witness for C5: the specification scenario (Groceries 220 of 270 total,
about 81 percent, exceeds 30 percent) gets its high-spending warning. -/
theorem highSpending_insight_iff_witness :
    ∃ p a, Insight.highSpending "Groceries" p a ∈ analyzeSpendingInsights scenarioExpenses :=
  (highSpending_insight_iff scenarioExpenses (by decide) "Groceries").1.mpr (by
    simp +decide [scenarioExpenses, totalSpent, catTotal, resolveCategoryName,
      groceriesCategory, gasCategory, List.filter_cons]
    norm_num)

/-- C6 counterexample: on the non-empty expense sequence with the single
zero-amount expense the pipeline emits no insights at all, in particular no
leading daily-average insight. -/
theorem dailyAverage_missing_on_zero_total :
    analyzeSpendingInsights [zeroExpense] = [] := by
  norm_num [analyzeSpendingInsights, zeroExpense, generatedInsights, totalSpent,
    perCategoryInsights, groupExpenses, insertGrouped, resolveCategoryName,
    insightsForCategory, trendHabits, sliceNeg, avgOrZero]

/-- C6 (amended): on every expense sequence with positive grand total,
exactly one daily-average info insight with amount grand total over 90 is
emitted, at the front of the list, ahead of every per-category insight. -/
theorem dailyAverage_leads_on_positive_total (expenses : List Expense)
    (hpos : 0 < totalSpent expenses) :
    analyzeSpendingInsights expenses =
      Insight.dailyAverage (totalSpent expenses / 90) :: perCategoryInsights expenses ∧
    ∀ q, Insight.dailyAverage q ∉ perCategoryInsights expenses := by
  have hne : expenses ≠ [] := by
    rintro rfl
    simp [totalSpent] at hpos
  constructor
  · rw [analyzeSpendingInsights, if_neg hne, generatedInsights, if_pos hpos]
  · intro q hq
    rcases List.mem_flatMap.mp hq with ⟨g, hg, hmem⟩
    simp only [insightsForCategory, List.mem_append] at hmem
    rcases hmem with h | h <;> split_ifs at h <;> simp_all

/-- Witness for C6 (amended) at a single ten-currency-unit expense. -/
theorem dailyAverage_leads_on_positive_total_witness :
    analyzeSpendingInsights [sampleExpense] =
      Insight.dailyAverage (totalSpent [sampleExpense] / 90) ::
        perCategoryInsights [sampleExpense] :=
  (dailyAverage_leads_on_positive_total [sampleExpense]
    (by norm_num [totalSpent, sampleExpense])).1

/-- C3: a bill's monthly series (included once it spans at least two months)
is classified recurring exactly when its coefficient of variation — the
population standard deviation of the full series divided by its mean — is
strictly below 0.3 and the series has at least three observations.  Stated
for series with positive mean; the zero-mean fallback is the safety
property of `isRecurring_false_of_zero_mean`. -/
theorem isRecurring_iff_cv (amounts : List ℚ) (_hlen : 2 ≤ amounts.length)
    (havg : 0 < avgAmount amounts) :
    isRecurring amounts = true ↔
      (Real.sqrt ((variance amounts : ℚ) : ℝ) / ((avgAmount amounts : ℚ) : ℝ) < 3 / 10 ∧
        3 ≤ amounts.length) := by
  have havgR : (0 : ℝ) < ((avgAmount amounts : ℚ) : ℝ) := by exact_mod_cast havg
  have h03 : (0 : ℝ) < 3 / 10 * ((avgAmount amounts : ℚ) : ℝ) := by positivity
  have hq : (0.3 : ℚ) = 3 / 10 := by norm_num
  have hkey : variance amounts < (0.3 * avgAmount amounts) ^ 2 ↔
      Real.sqrt ((variance amounts : ℚ) : ℝ) / ((avgAmount amounts : ℚ) : ℝ) < 3 / 10 := by
    rw [div_lt_iff₀ havgR, Real.sqrt_lt' h03, hq]
    constructor
    · intro h
      have h2 := (Rat.cast_lt (K := ℝ)).mpr h
      push_cast at h2
      exact h2
    · intro h
      have h2 : ((variance amounts : ℚ) : ℝ) <
          (((3 / 10 * avgAmount amounts : ℚ)) : ℝ) ^ 2 := by
        push_cast
        exact h
      exact_mod_cast h2
  rw [isRecurring, cvLtThreshold, if_pos havg]
  simp only [Bool.and_eq_true, decide_eq_true_eq]
  rw [hkey]

/-- Witness for C3: the constant three-month series 10, 10, 10 has variance
0, coefficient of variation 0, and is recurring. -/
theorem isRecurring_iff_cv_witness :
    isRecurring [10, 10, 10] = true ↔
      (Real.sqrt ((variance [10, 10, 10] : ℚ) : ℝ) /
          ((avgAmount [10, 10, 10] : ℚ) : ℝ) < 3 / 10 ∧
        3 ≤ ([10, 10, 10] : List ℚ).length) :=
  isRecurring_iff_cv [10, 10, 10] (by norm_num) (by norm_num [avgAmount])

/-- Unguarded mean: `avgOrZero` agrees with `sum / length` everywhere, since
an empty list has sum 0 and `0 / 0 = 0` in ℚ. -/
theorem avgOrZero_eq_mean (t : List ℚ) : avgOrZero t = t.sum / (t.length : ℚ) := by
  rw [avgOrZero]
  split_ifs with h
  · simp [h]
  · rfl

/-- Guarded mean: `avgGuard1` agrees with `sum / length` everywhere, since
the `|| 1` guard only fires on the empty list, whose sum is 0. -/
theorem avgGuard1_eq_mean (t : List ℚ) : avgGuard1 t = t.sum / (t.length : ℚ) := by
  rw [avgGuard1]
  split_ifs with h
  · simp [List.length_eq_zero.mp h]
  · rfl

/-- Reversal does not change the `avgOrZero` mean. -/
theorem avgOrZero_reverse (t : List ℚ) : avgOrZero t.reverse = avgOrZero t := by
  simp [avgOrZero, List.sum_reverse]

/-- The positivity-guarded trend conditional agrees with the spec's
zero-test conditional whenever the earlier mean is non-negative. -/
theorem trend_if_shape (em lm : ℚ) (h : 0 ≤ em) :
    (if 0 < em then (lm - em) / em * 100 else 0) =
      if em = 0 then 0 else (lm - em) / em * 100 := by
  rcases lt_or_eq_of_le h with hpos | hzero
  · rw [if_pos hpos, if_neg (ne_of_gt hpos)]
  · rw [← hzero]
    simp

/-- C1: on every non-empty series of non-negative amounts, both trend
implementations — the category trend of `loadTrendsData` on the
time-ascending series, and the trend of `analyzeSpendingHabits` on the same
series in the descending order the code receives — realize the spec's
formula: split at the floor of half the length, trend percent equals
(laterMean - earlierMean) / earlierMean × 100, defined as 0 when the earlier
mean is 0; a single-observation series yields a 0 percent trend. -/
theorem trend_estimator_matches_spec (s : List ℚ) (hne : s ≠ [])
    (hnn : ∀ a ∈ s, 0 ≤ a) :
    trendMonthly s = specTrend s ∧
    trendHabits s.reverse = specTrend s ∧
    (s.length = 1 → specTrend s = 0) := by
  have hn1 : 1 ≤ s.length := List.length_pos.mpr hne
  have hem_nonneg :
      0 ≤ (s.take (s.length / 2)).sum / (((s.take (s.length / 2)).length : ℕ) : ℚ) := by
    apply div_nonneg
    · apply List.sum_nonneg
      intro x hx
      exact hnn x (List.mem_of_mem_take hx)
    · positivity
  refine ⟨?_, ?_, ?_⟩
  · simp only [trendMonthly, earlierMean, laterMean, specTrend, avgGuard1_eq_mean]
    exact trend_if_shape _ _ hem_nonneg
  · by_cases hlen2 : 2 ≤ s.length
    · have hk : s.length / 2 ≠ 0 := by omega
      have hfh : sliceNeg s.reverse (s.length / 2) =
          (s.take (s.length / 2)).reverse := by
        rw [sliceNeg, if_neg hk, List.length_reverse]
        exact List.reverse_take.symm
      have hsh : s.reverse.take (s.length - s.length / 2) =
          (s.drop (s.length / 2)).reverse := by
        exact List.reverse_drop.symm
      simp only [trendHabits, List.length_reverse]
      rw [hfh, hsh]
      simp only [avgOrZero_eq_mean, List.sum_reverse, List.length_reverse, specTrend]
      exact trend_if_shape _ _ hem_nonneg
    · have h1 : s.length = 1 := by omega
      obtain ⟨a, rfl⟩ := List.length_eq_one.mp h1
      have ha : 0 ≤ a := hnn a (by simp)
      simp only [specTrend, trendHabits, sliceNeg, avgOrZero]
      norm_num
  · intro h1
    simp [specTrend, h1]

/-- Witness for C1: the two-observation series 4, 6. -/
theorem trend_estimator_matches_spec_witness :
    trendMonthly [4, 6] = specTrend [4, 6] ∧
    trendHabits ([4, 6] : List ℚ).reverse = specTrend [4, 6] ∧
    (([4, 6] : List ℚ).length = 1 → specTrend [4, 6] = 0) :=
  trend_estimator_matches_spec [4, 6] (by simp) (by decide)

end SpendTracker
